import Mathlib

/-!
Verification of the watch-and-rebuild core specified for the Astral-ts
repository.  The repository's own scripts (`src/live-reload.py`,
`src/reload.py`) are thin configurations of an external live-reload
library; the specification describes, at design level, the minimal
watch-and-rebuild core those scripts depend on.  The core itself (watch
registry, rebuild dispatcher, debounce machine) is therefore modelled
here from the specification's words, while `src/reload.py` is embedded
directly as the Python script it is.
-/

namespace Astral

/-- Modelled from the spec: the error taxonomy of section 7.  The watch
registry's `register` fails with `ConfigurationError` on a malformed
pattern; the filesystem watcher may fail with `WatcherError`; a
dispatched action that fails is an `ActionExecutionError`, recovered
locally. -/
inductive ConfigErr where
  | malformedPattern : ConfigErr
deriving DecidableEq, Repr

/-- Modelled from the spec: an action is a tagged variant
`Shell(command, optional capture target) | Callback(function)`
(design note, section 9); a shell action carries an optional
captured-output redirection target. -/
inductive Action where
  | shell (cmd : String) (output : Option String) : Action
  | callback (name : String) : Action
deriving DecidableEq, Repr

/-- Tokens of a glob pattern: a literal character, the `*` wildcard
(any sequence), the `?` wildcard (any single character), or a
character class `[...]`. -/
inductive GlobToken where
  | lit (c : Char) : GlobToken
  | star : GlobToken
  | question : GlobToken
  | cls (cs : List Char) : GlobToken
deriving DecidableEq, Repr

/-- Modelled from the spec: compiling a pattern string into glob
tokens, scanned character by character.  The first argument is `some
acc` while inside a `[...]` class whose body so far is `acc`
(reversed), `none` otherwise.  The spec leaves exact glob semantics
open ("simple glob matching against relative paths"); a pattern is
malformed exactly when a character class `[` is never closed, and a
malformed pattern is a `ConfigurationError`. -/
def tokenizeAux : Option (List Char) → List Char → Except ConfigErr (List GlobToken)
  | some _, [] => .error .malformedPattern
  | some acc, c :: rest =>
    if c = ']' then (tokenizeAux none rest).map (GlobToken.cls acc.reverse :: ·)
    else tokenizeAux (some (c :: acc)) rest
  | none, [] => .ok []
  | none, c :: rest =>
    if c = '*' then (tokenizeAux none rest).map (GlobToken.star :: ·)
    else if c = '?' then (tokenizeAux none rest).map (GlobToken.question :: ·)
    else if c = '[' then tokenizeAux (some []) rest
    else (tokenizeAux none rest).map (GlobToken.lit c :: ·)

/-- Compile a whole pattern (not currently inside a class). -/
def tokenize (l : List Char) : Except ConfigErr (List GlobToken) :=
  tokenizeAux none l

/-- Modelled from the spec: glob matching of a token list against a
path, supporting wildcards and exact paths; `*` matches any sequence
of characters, `?` any single character, a class any of its
characters, and a literal only itself. -/
def tokMatch : List GlobToken → List Char → Bool
  | [], s => s.isEmpty
  | .star :: ps, s => s.tails.any (fun t => tokMatch ps t)
  | .question :: _, [] => false
  | .question :: ps, _ :: cs => tokMatch ps cs
  | .lit _ :: _, [] => false
  | .lit a :: ps, c :: cs => a = c && tokMatch ps cs
  | .cls _ :: _, [] => false
  | .cls l :: ps, c :: cs => l.contains c && tokMatch ps cs

/-- Modelled from the spec: a `WatchRule` associates a glob-or-exact
pattern with an action (debounce window handled by the dispatcher). -/
structure WatchRule where
  pattern : String
  action : Action
deriving DecidableEq, Repr

/-- Modelled from the spec: the watch registry is an ordered collection
of watch rules; evaluation order is registration order. -/
abbrev Registry := List WatchRule

/-- Modelled from the spec: a `ChangeEvent` carries a filesystem path
and a timestamp. -/
structure ChangeEvent where
  path : String
  timestamp : Nat
deriving DecidableEq, Repr

/-- Modelled from the spec: `register(pattern, action)` appends a rule;
a malformed pattern fails at registration time with a
`ConfigurationError`. -/
def register (r : Registry) (p : String) (a : Action) : Except ConfigErr Registry :=
  match tokenize p.data with
  | .error e => .error e
  | .ok _ => .ok (r ++ [⟨p, a⟩])

/-- Successive `register` calls starting from a given registry,
stopping at the first `ConfigurationError`. -/
def registerFrom (r : Registry) : List (String × Action) → Except ConfigErr Registry
  | [] => .ok r
  | pa :: rest =>
    match register r pa.1 pa.2 with
    | .error e => .error e
    | .ok r1 => registerFrom r1 rest

/-- Build a registry by successive `register` calls over a static,
ordered configuration list. -/
def registerAll (cfg : List (String × Action)) : Except ConfigErr Registry :=
  registerFrom [] cfg

/-- Whether one rule's pattern matches a path (false when the stored
pattern is malformed, which registration rules out). -/
def ruleMatchesB (w : WatchRule) (path : String) : Bool :=
  match tokenize w.pattern.data with
  | .ok ts => tokMatch ts path.data
  | .error _ => false

/-- Modelled from the spec: `match(event)` returns every rule whose
pattern matches the event path, in registration order, walking the
registry front to back; it can only fail if a stored pattern is
malformed. -/
def matchEvent : Registry → ChangeEvent → Except ConfigErr (List Action)
  | [], _ => .ok []
  | w :: ws, e =>
    match tokenize w.pattern.data with
    | .error er => .error er
    | .ok ts =>
      (matchEvent ws e).map
        (fun rest => if tokMatch ts e.path.data then w.action :: rest else rest)

/-- Total matcher used by the driver loop once registration has
validated all patterns: the actions of the matching rules, in
registration order. -/
def matchedActions (r : Registry) (e : ChangeEvent) : List Action :=
  (r.filter (fun w => ruleMatchesB w e.path)).map (fun w => w.action)

/-- Events in the execution trace of the rebuild dispatcher: the start
and the completion of one action's run. -/
inductive TraceEv where
  | start (a : Action) : TraceEv
  | finish (a : Action) : TraceEv
deriving DecidableEq, Repr

/-- Modelled from the spec: `trigger(actions)` runs each action to
completion before starting the next — the trace of one dispatch
records, for each action in order, its start immediately followed by
its completion, never interleaving two actions. -/
def triggerTrace : List Action → List TraceEv
  | [] => []
  | a :: as => .start a :: .finish a :: triggerTrace as

/-- Outcome of executing one action: success, or a failure
(`ActionExecutionError`) that is recovered locally. -/
inductive ExecOutcome where
  | ok : ExecOutcome
  | failed (msg : String) : ExecOutcome
deriving DecidableEq, Repr

/-- Modelled from the spec: a `WatcherError` from the filesystem
notification subsystem, treated as fatal. -/
inductive WatchErr where
  | watcherError : WatchErr
deriving DecidableEq, Repr

/-- State threaded through the watch loop: every action invocation so
far (in order) and the log of failures surfaced to the operator. -/
structure LoopState where
  dispatched : List Action
  log : List String
deriving DecidableEq, Repr

/-- Modelled from the spec: the dispatcher runs the matched actions in
order; an action failure is caught and logged and the remaining
actions still run (`exec` is the oracle giving each invocation's
outcome). -/
def runTrigger (exec : Action → ExecOutcome) : List Action → LoopState → LoopState
  | [], s => s
  | a :: as, s =>
    match exec a with
    | .ok => runTrigger exec as ⟨s.dispatched ++ [a], s.log⟩
    | .failed m => runTrigger exec as ⟨s.dispatched ++ [a], s.log ++ [m]⟩

/-- The log line one action invocation produces under the outcome
oracle `exec`: the failure message when the invocation fails, nothing
on success. -/
def failLog (exec : Action → ExecOutcome) (a : Action) : Option String :=
  match exec a with
  | .ok => none
  | .failed m => some m

/-- Modelled from the spec: the watch loop consumes the stream
delivered by the filesystem watcher (each item either a change event
or a `WatcherError`).  A watcher error is fatal and terminates the
loop; a change event is matched against the registry and its actions
dispatched, after which the loop continues — action failures never
terminate it. -/
def runLoop (exec : Action → ExecOutcome) (r : Registry) :
    List (Except WatchErr ChangeEvent) → LoopState → Except WatchErr LoopState
  | [], s => .ok s
  | .error w :: _, _ => .error w
  | .ok e :: rest, s => runLoop exec r rest (runTrigger exec (matchedActions r e) s)

/-- Result reported by the external process executor for one command:
its exit status and its captured standard output. -/
structure CmdResult where
  exitCode : Nat
  stdout : String
deriving DecidableEq, Repr

/-- Modelled from the spec: the single `execute(Action) -> Result`
interface of the dispatcher.  `run` is the external command executor
oracle and `cb` the callback-outcome oracle; the filesystem is a map
from paths to contents.  A shell action with a configured
output-capture target writes the command's captured standard output
into that target file; without a target the output is discarded and
no file is written; a callback touches no file. -/
def executeAction (run : String → CmdResult) (cb : String → ExecOutcome)
    (a : Action) (fs : String → Option String) :
    (String → Option String) × ExecOutcome :=
  match a with
  | .shell cmd none =>
    (fs, if (run cmd).exitCode = 0 then .ok else .failed cmd)
  | .shell cmd (some tgt) =>
    (fun p => if p = tgt then some (run cmd).stdout else fs p,
     if (run cmd).exitCode = 0 then .ok else .failed cmd)
  | .callback n => (fs, cb n)

/-- Modelled from the spec: one debounce step of the window-coalescing
fold.  The state is the pending (event, window-deadline) pair, if any.
A new event within the open window replaces the pending event and
resets the window timer, emitting nothing; an event past the deadline
lets the pending event dispatch and opens a fresh window. -/
def debounceStep (W : Nat) (st : Option (ChangeEvent × Nat)) (e : ChangeEvent) :
    Option (ChangeEvent × Nat) × List ChangeEvent :=
  match st with
  | none => (some (e, e.timestamp + W), [])
  | some (pend, d) =>
    if e.timestamp < d then (some (e, e.timestamp + W), [])
    else (some (e, e.timestamp + W), [pend])

/-- Modelled from the spec: run the debouncer over a timestamp-ordered
event sequence, returning the dispatched (coalesced) events in order;
when the input ends, the pending window expires and its event
dispatches. -/
def debounceRun (W : Nat) : List ChangeEvent → Option (ChangeEvent × Nat) → List ChangeEvent
  | [], none => []
  | [], some (pend, _) => [pend]
  | e :: es, st =>
    let so := debounceStep W st e
    so.2 ++ debounceRun W es so.1

/-- Modelled from the spec: the per-path debounce state machine
`Idle -> PendingWithinWindow -> Dispatching -> Idle`; the
`Dispatching` state holds the at-most-one queued event that arrived
during the dispatch. -/
inductive DState where
  | idle : DState
  | pendingWithinWindow (e : ChangeEvent) (deadline : Nat) : DState
  | dispatching (queued : Option ChangeEvent) : DState
deriving DecidableEq, Repr

/-- Inputs to the debounce state machine: a matching event arrives,
the window timer fires at a time, or the current dispatch completes
at a time. -/
inductive DInput where
  | arrive (e : ChangeEvent) : DInput
  | timerFire (now : Nat) : DInput
  | dispatchDone (now : Nat) : DInput
deriving DecidableEq, Repr

/-- Modelled from the spec: the transition function of the debounce
state machine, also returning the events whose dispatch begins at this
step.  An event in `PendingWithinWindow` resets the window timer; an
event in `Dispatching` is queued (keeping the latest); when the timer
fires past the deadline the pending event starts dispatching; when a
dispatch completes with a queued event the machine re-enters
`PendingWithinWindow` with a fresh window, otherwise it returns to
`Idle`. -/
def dstep (W : Nat) : DState → DInput → DState × List ChangeEvent
  | .idle, .arrive e => (.pendingWithinWindow e (e.timestamp + W), [])
  | .pendingWithinWindow _ _, .arrive e => (.pendingWithinWindow e (e.timestamp + W), [])
  | .dispatching _, .arrive e => (.dispatching (some e), [])
  | .pendingWithinWindow e d, .timerFire now =>
    if d ≤ now then (.dispatching none, [e]) else (.pendingWithinWindow e d, [])
  | .idle, .timerFire _ => (.idle, [])
  | .dispatching q, .timerFire _ => (.dispatching q, [])
  | .dispatching (some e), .dispatchDone now => (.pendingWithinWindow e (now + W), [])
  | .dispatching none, .dispatchDone _ => (.idle, [])
  | .idle, .dispatchDone _ => (.idle, [])
  | .pendingWithinWindow e d, .dispatchDone _ => (.pendingWithinWindow e d, [])

/-- Number of rebuild obligations (pending or queued dispatches) a
debounce state holds. -/
def pendingDispatches : DState → Nat
  | .idle => 0
  | .pendingWithinWindow _ _ => 1
  | .dispatching none => 0
  | .dispatching (some _) => 1

/-! ### Shallow embedding of `src/reload.py`

The script `src/reload.py` is embedded as the sequence of top-level
Python statements it consists of, with Python's name-resolution rule:
evaluating a name that is not bound raises `NameError` and aborts the
script at that statement. -/

/-- Python runtime values occurring in `src/reload.py`: the imported
`Server` class and `shell` helper, a server instance, a defined
function, a string, and the action object `shell(cmd, output=...)`
returns. -/
inductive PyVal where
  | vServerClass : PyVal
  | vShellFn : PyVal
  | vServer : PyVal
  | vFunc (n : String) : PyVal
  | vStr (s : String) : PyVal
  | vShellAction (cmd : String) (out : Option String) : PyVal
  | vNone : PyVal
deriving DecidableEq, Repr

/-- The only runtime error the script can raise before any I/O
happens: an unbound name. -/
inductive PyError where
  | nameError (n : String) : PyError
deriving DecidableEq, Repr

/-- Python expressions occurring in `src/reload.py`: a name, a string
literal, and a one-positional-argument call with an optional `output=`
keyword argument. -/
inductive PyExpr where
  | name (n : String) : PyExpr
  | strLit (s : String) : PyExpr
  | call1 (f : PyExpr) (arg : PyExpr) (kwOutput : Option String) : PyExpr
deriving DecidableEq, Repr

/-- Resolve a name in the environment; an unbound name raises
`NameError`, as in Python. -/
def lookupName (env : List (String × PyVal)) (n : String) : Except PyError PyVal :=
  match env.lookup n with
  | some v => .ok v
  | none => .error (.nameError n)

/-- Apply a callable value: `Server(...)` builds a server instance,
`shell(cmd, output=...)` builds a shell action object. -/
def applyFn (f : PyVal) (arg : PyVal) (kwOutput : Option String) : PyVal :=
  match f, arg with
  | .vServerClass, _ => .vServer
  | .vShellFn, .vStr c => .vShellAction c kwOutput
  | _, _ => .vNone

/-- Evaluate an expression: Python evaluates the callee before the
argument, and a name that is unbound raises `NameError`. -/
def evalExpr (env : List (String × PyVal)) : PyExpr → Except PyError PyVal
  | .name n => lookupName env n
  | .strLit s => .ok (.vStr s)
  | .call1 f arg kw =>
    match evalExpr env f with
    | .error pe => .error pe
    | .ok fv =>
      match evalExpr env arg with
      | .error pe => .error pe
      | .ok av => .ok (applyFn fv av kw)

/-- The top-level statements of `src/reload.py`: the import, an
assignment, a function definition, a `server.watch(...)` call and
`server.serve()`. -/
inductive Stmt where
  | importLive : Stmt
  | assign (x : String) (e : PyExpr) : Stmt
  | defFun (n : String) : Stmt
  | watchCall (p : PyExpr) (a : PyExpr) : Stmt
  | serveCall : Stmt
deriving DecidableEq, Repr

/-- The interpreter state of the script: bound names, the watch rules
registered so far, whether `serve` was reached, and the uncaught
error, if any (an uncaught error halts the script). -/
structure PyState where
  env : List (String × PyVal)
  watches : List (PyVal × PyVal)
  served : Bool
  error : Option PyError
deriving DecidableEq, Repr

/-- Execute one top-level statement.  A previously raised uncaught
error halts the script, so later statements have no effect.
`server.watch(...)` and `server.serve()` first resolve the name
`server`, then evaluate the arguments, as Python does. -/
def execStmt (s : PyState) : Stmt → PyState
  | .importLive =>
    if s.error.isSome then s
    else { s with env := ("Server", .vServerClass) :: ("shell", .vShellFn) :: s.env }
  | .assign x e =>
    if s.error.isSome then s
    else
      match evalExpr s.env e with
      | .error pe => { s with error := some pe }
      | .ok v => { s with env := (x, v) :: s.env }
  | .defFun n =>
    if s.error.isSome then s
    else { s with env := (n, .vFunc n) :: s.env }
  | .watchCall p a =>
    if s.error.isSome then s
    else
      match lookupName s.env "server" with
      | .error pe => { s with error := some pe }
      | .ok _ =>
        match evalExpr s.env p with
        | .error pe => { s with error := some pe }
        | .ok pv =>
          match evalExpr s.env a with
          | .error pe => { s with error := some pe }
          | .ok av => { s with watches := s.watches ++ [(pv, av)] }
  | .serveCall =>
    if s.error.isSome then s
    else
      match lookupName s.env "server" with
      | .error pe => { s with error := some pe }
      | .ok _ => { s with served := true }

/-- The statements of `src/reload.py`, in source order. -/
def reloadScript : List Stmt :=
  [ .importLive,
    .assign "server" (.call1 (.name "Server") (.name "wsgi_app") none),
    .watchCall (.strLit "site") (.strLit "pug site"),
    .defFun "alert",
    .watchCall (.strLit "foo.txt") (.name "alert"),
    .watchCall (.strLit "style.less")
      (.call1 (.name "shell") (.strLit "lessc style.less") (some "style.css")),
    .serveCall ]

/-- Run a script from the empty initial state. -/
def runScript (prog : List Stmt) : PyState :=
  prog.foldl execStmt ⟨[], [], false, none⟩

/-! ### Lemmas about the watch registry -/

/-- A rule of a well-formed registry stores a pattern `tokenize`
accepts. -/
def wfRule (w : WatchRule) : Prop :=
  (tokenize w.pattern.data).isOk = true

theorem matchEvent_eq_matchedActions (r : Registry) (e : ChangeEvent)
    (h : ∀ w ∈ r, wfRule w) :
    matchEvent r e = .ok (matchedActions r e) := by
  induction r with
  | nil => rfl
  | cons w ws ih =>
    have hw : wfRule w := h w (List.mem_cons_self w ws)
    have hws : ∀ u ∈ ws, wfRule u := fun u hu => h u (List.mem_cons_of_mem w hu)
    unfold wfRule at hw
    cases hts : tokenize w.pattern.data with
    | error er => rw [hts] at hw; simp [Except.isOk, Except.toBool] at hw
    | ok ts =>
      simp only [matchEvent, hts, ih hws, Except.map]
      simp [matchedActions, ruleMatchesB, hts, List.filter]
      by_cases hm : tokMatch ts e.path.data
      · simp [hm]
      · simp [hm]

theorem register_ok_iff (r : Registry) (p : String) (a : Action) :
    (∃ r2, register r p a = .ok r2 ∧ r2 = r ++ [⟨p, a⟩]) ↔
      (tokenize p.data).isOk = true := by
  unfold register
  cases h : tokenize p.data with
  | error er => simp [Except.isOk, Except.toBool]
  | ok ts => simp [Except.isOk, Except.toBool]

theorem registerAll_ok (cfg : List (String × Action)) (r0 r : Registry)
    (h0 : ∀ w ∈ r0, wfRule w)
    (h : registerFrom r0 cfg = .ok r) :
    (∀ w ∈ r, wfRule w) ∧ r = r0 ++ cfg.map (fun pa => ⟨pa.1, pa.2⟩) := by
  induction cfg generalizing r0 with
  | nil =>
    simp only [registerFrom, Except.ok.injEq] at h
    subst h
    simpa using h0
  | cons pa rest ih =>
    rw [registerFrom] at h
    cases hr : register r0 pa.1 pa.2 with
    | error er => rw [hr] at h; simp at h
    | ok r1 =>
      rw [hr] at h
      unfold register at hr
      cases ht : tokenize pa.1.data with
      | error er => rw [ht] at hr; simp at hr
      | ok ts =>
        rw [ht] at hr
        simp only [Except.ok.injEq] at hr
        have h1 : ∀ w ∈ r1, wfRule w := by
          intro w hw
          rw [← hr] at hw
          rcases List.mem_append.mp hw with hmem | hmem
          · exact h0 w hmem
          · simp at hmem
            subst hmem
            unfold wfRule
            simp [ht, Except.isOk, Except.toBool]
        have := ih r1 h1 h
        refine ⟨this.1, ?_⟩
        rw [this.2, ← hr]
        simp [List.append_assoc]

/-! ### The claims -/

/-- Claim C1: for every registry built by successive `register` calls
and every change event, `matchEvent` returns exactly the actions of
the rules whose pattern matches the event's path, in registration
order — the registry holds the registered rules in order, and the
result is the action sequence of the matching-rule subsequence, with
no rule omitted, added, or reordered. -/
theorem claim_C1 (cfg : List (String × Action)) (r : Registry) (e : ChangeEvent)
    (h : registerAll cfg = .ok r) :
    r = cfg.map (fun pa => ⟨pa.1, pa.2⟩) ∧
    matchEvent r e =
      .ok ((r.filter (fun w => ruleMatchesB w e.path)).map (fun w => w.action)) := by
  have hall := registerAll_ok cfg [] r (by intro w hw; simp at hw) h
  refine ⟨by simpa using hall.2, ?_⟩
  exact matchEvent_eq_matchedActions r e hall.1

/-- Witness for C1: the two-rule configuration of the `*.pug` /
`*.js` scenario, matched against a `index.pug` change event. -/
theorem claim_C1_witness :
    registerAll [("*.pug", Action.callback "compile"), ("*.js", Action.callback "copy")] =
      .ok [⟨"*.pug", .callback "compile"⟩, ⟨"*.js", .callback "copy"⟩] ∧
    matchEvent [⟨"*.pug", .callback "compile"⟩, ⟨"*.js", .callback "copy"⟩] ⟨"index.pug", 3⟩ =
      .ok (([⟨"*.pug", Action.callback "compile"⟩, ⟨"*.js", Action.callback "copy"⟩].filter
          (fun w => ruleMatchesB w "index.pug")).map (fun w => w.action)) :=
  ⟨rfl, (claim_C1 [("*.pug", .callback "compile"), ("*.js", .callback "copy")]
      [⟨"*.pug", .callback "compile"⟩, ⟨"*.js", .callback "copy"⟩] ⟨"index.pug", 3⟩ rfl).2⟩

/-- Claim C5: with `*.pug` bound to "compile" and `*.js` bound to
"copy" registered, a change event for `index.pug` triggers only
"compile", a change event for `app.js` triggers only "copy", and a
change event for `readme.md` triggers no action, at any event
timestamps. -/
theorem claim_C5 (t1 t2 t3 : Nat) :
    registerAll [("*.pug", Action.callback "compile"), ("*.js", Action.callback "copy")] =
      .ok [⟨"*.pug", .callback "compile"⟩, ⟨"*.js", .callback "copy"⟩] ∧
    matchEvent [⟨"*.pug", .callback "compile"⟩, ⟨"*.js", .callback "copy"⟩] ⟨"index.pug", t1⟩ =
      .ok [.callback "compile"] ∧
    matchEvent [⟨"*.pug", .callback "compile"⟩, ⟨"*.js", .callback "copy"⟩] ⟨"app.js", t2⟩ =
      .ok [.callback "copy"] ∧
    matchEvent [⟨"*.pug", .callback "compile"⟩, ⟨"*.js", .callback "copy"⟩] ⟨"readme.md", t3⟩ =
      .ok [] :=
  ⟨rfl, rfl, rfl, rfl⟩

/-- Claim C6: with the overlapping patterns `*.scss` and `style.scss`
both registered, a change event for `style.scss` matches both rules
and both actions are returned, in registration order; two rules with
identical actions are not merged or deduplicated either. -/
theorem claim_C6 (t : Nat) :
    registerAll [("*.scss", Action.callback "A"), ("style.scss", Action.callback "B")] =
      .ok [⟨"*.scss", .callback "A"⟩, ⟨"style.scss", .callback "B"⟩] ∧
    matchEvent [⟨"*.scss", .callback "A"⟩, ⟨"style.scss", .callback "B"⟩] ⟨"style.scss", t⟩ =
      .ok [.callback "A", .callback "B"] ∧
    matchEvent [⟨"*.scss", .callback "A"⟩, ⟨"style.scss", .callback "A"⟩] ⟨"style.scss", t⟩ =
      .ok [.callback "A", .callback "A"] :=
  ⟨rfl, rfl, rfl⟩

/-- Claim C10: running `src/reload.py` raises a `NameError` for
`wsgi_app` (referenced at `Server(wsgi_app)` but never defined), so no
watch rule is ever registered and serving never begins. -/
theorem claim_C10 :
    (runScript reloadScript).error = some (.nameError "wsgi_app") ∧
    (runScript reloadScript).watches = [] ∧
    (runScript reloadScript).served = false :=
  ⟨rfl, rfl, rfl⟩

theorem triggerTrace_append (xs ys : List Action) :
    triggerTrace (xs ++ ys) = triggerTrace xs ++ triggerTrace ys := by
  induction xs with
  | nil => rfl
  | cons a as ih => simp [triggerTrace, ih]

/-- Claim C4: the dispatcher runs each action of a dispatch to
completion before starting the next: wherever action `a` precedes
action `b` in the dispatched sequence, the trace shows `a`'s
completion strictly before `b`'s start, with no interleaving; in
particular, for a two-rule registry whose rules both match an event,
the first rule's action completes fully before the second begins. -/
theorem claim_C4 (l1 l2 l3 : List Action) (a b : Action)
    (p1 p2 : String) (a1 a2 : Action) (e : ChangeEvent)
    (h1 : ruleMatchesB ⟨p1, a1⟩ e.path = true)
    (h2 : ruleMatchesB ⟨p2, a2⟩ e.path = true) :
    triggerTrace (l1 ++ a :: l2 ++ b :: l3) =
      triggerTrace l1 ++ .start a :: .finish a ::
        (triggerTrace l2 ++ .start b :: .finish b :: triggerTrace l3) ∧
    triggerTrace (matchedActions [⟨p1, a1⟩, ⟨p2, a2⟩] e) =
      [.start a1, .finish a1, .start a2, .finish a2] := by
  constructor
  · rw [triggerTrace_append]
    simp [triggerTrace, triggerTrace_append]
  · simp [matchedActions, List.filter, h1, h2, triggerTrace]

/-- Witness for C4: the overlapping `*.scss` / `style.scss` rules on a
`style.scss` change event, with a concrete surrounding dispatch. -/
theorem claim_C4_witness :
    triggerTrace ([] ++ Action.callback "A" :: [] ++ Action.callback "B" :: []) =
      triggerTrace [] ++ .start (.callback "A") :: .finish (.callback "A") ::
        (triggerTrace [] ++ .start (.callback "B") :: .finish (.callback "B") :: triggerTrace []) ∧
    triggerTrace (matchedActions [⟨"*.scss", .callback "A"⟩, ⟨"style.scss", .callback "B"⟩]
        ⟨"style.scss", 7⟩) =
      [.start (.callback "A"), .finish (.callback "A"),
       .start (.callback "B"), .finish (.callback "B")] :=
  claim_C4 [] [] [] (.callback "A") (.callback "B") "*.scss" "style.scss"
    (.callback "A") (.callback "B") ⟨"style.scss", 7⟩ rfl rfl

/-- Claim C9: executing a shell action with a configured
output-capture target writes the command's captured standard output
into that target file (and touches no other file); executing a shell
action with no capture target leaves the filesystem unchanged (the
output is discarded, no such file is written). -/
theorem claim_C9 (run : String → CmdResult) (cb : String → ExecOutcome)
    (cmd tgt : String) (fs : String → Option String) :
    (executeAction run cb (.shell cmd (some tgt)) fs).1 tgt = some (run cmd).stdout ∧
    (∀ p, p ≠ tgt → (executeAction run cb (.shell cmd (some tgt)) fs).1 p = fs p) ∧
    (executeAction run cb (.shell cmd none) fs).1 = fs := by
  refine ⟨by simp [executeAction], fun p hp => by simp [executeAction, hp], rfl⟩

/-- Witness for C9: `shell('lessc style.less', output='style.css')`
with an executor that captures "CSS" writes it to `style.css` and
leaves `other` untouched. -/
theorem claim_C9_witness :
    (executeAction (fun _ => ⟨0, "CSS"⟩) (fun _ => .ok)
        (.shell "lessc style.less" (some "style.css")) (fun _ => none)).1 "style.css" =
      some "CSS" ∧
    (executeAction (fun _ => ⟨0, "CSS"⟩) (fun _ => .ok)
        (.shell "lessc style.less" (some "style.css")) (fun _ => none)).1 "other" = none :=
  ⟨(claim_C9 (fun _ => ⟨0, "CSS"⟩) (fun _ => .ok) "lessc style.less" "style.css"
      (fun _ => none)).1,
   (claim_C9 (fun _ => ⟨0, "CSS"⟩) (fun _ => .ok) "lessc style.less" "style.css"
      (fun _ => none)).2.1 "other" (by decide)⟩

/-- Claim C7: the per-path debounce state machine: a matching event
arriving in `PendingWithinWindow` resets the window timer and emits no
second dispatch; a matching event arriving in `Dispatching` is queued,
and when the current dispatch completes the machine re-enters
`PendingWithinWindow` immediately with a fresh window; every reachable
state holds at most one pending dispatch obligation. -/
theorem claim_C7 (W : Nat) (e e2 : ChangeEvent) (d now : Nat) (q : Option ChangeEvent)
    (s : DState) (i : DInput) :
    dstep W (.pendingWithinWindow e2 d) (.arrive e) =
      (.pendingWithinWindow e (e.timestamp + W), []) ∧
    dstep W (.dispatching q) (.arrive e) = (.dispatching (some e), []) ∧
    dstep W (.dispatching (some e)) (.dispatchDone now) =
      (.pendingWithinWindow e (now + W), []) ∧
    pendingDispatches (dstep W s i).1 ≤ 1 := by
  refine ⟨rfl, by cases q <;> rfl, rfl, ?_⟩
  cases s with
  | idle => cases i <;> simp [dstep, pendingDispatches]
  | pendingWithinWindow e3 d3 =>
    cases i with
    | arrive e4 => simp [dstep, pendingDispatches]
    | timerFire n =>
      by_cases h : d3 ≤ n <;> simp [dstep, pendingDispatches, h]
    | dispatchDone n => simp [dstep, pendingDispatches]
  | dispatching q2 => cases q2 <;> cases i <;> simp [dstep, pendingDispatches]

theorem debounceRun_pending (W : Nat) (pend : ChangeEvent) (es : List ChangeEvent)
    (h : List.Chain (fun a b => b.timestamp < a.timestamp + W) pend es) :
    debounceRun W es (some (pend, pend.timestamp + W)) =
      [(pend :: es).getLast (List.cons_ne_nil pend es)] := by
  induction es generalizing pend with
  | nil => simp [debounceRun]
  | cons f fs ih =>
    cases h with
    | cons hf hchain =>
      have hstep : debounceStep W (some (pend, pend.timestamp + W)) f =
          (some (f, f.timestamp + W), []) := by
        simp [debounceStep, hf]
      simp only [debounceRun, hstep, List.nil_append]
      rw [ih f hchain]
      rw [List.getLast_cons (List.cons_ne_nil f fs)]

/-- Claim C3: N ≥ 1 filesystem events for one watched path, each
arriving within the debounce window of its predecessor, are coalesced
into exactly one dispatch, which carries the last event (so the
dispatch uses the path/state as of the last event); the matching-rule
subsequence triggered for that single dispatch uses each registered
rule at most once. -/
theorem claim_C3 (W : Nat) (p : String) (e : ChangeEvent) (es : List ChangeEvent)
    (hpath : ∀ x ∈ e :: es, x.path = p)
    (hchain : List.Chain (fun a b => b.timestamp < a.timestamp + W) e es) :
    debounceRun W (e :: es) none = [(e :: es).getLast (List.cons_ne_nil e es)] ∧
    ((e :: es).getLast (List.cons_ne_nil e es)).path = p ∧
    (∀ r : Registry,
      (r.filter
        (fun w => ruleMatchesB w ((e :: es).getLast (List.cons_ne_nil e es)).path)).Sublist
        r) := by
  refine ⟨?_, ?_, fun r => List.filter_sublist r⟩
  · have hstep : debounceStep W none e = (some (e, e.timestamp + W), []) := rfl
    simp only [debounceRun, hstep, List.nil_append]
    exact debounceRun_pending W e es hchain
  · exact hpath _ (List.getLast_mem (List.cons_ne_nil e es))

/-- Witness for C3: three rapid events for path `p` at times 0, 50,
120 within a 100-tick window coalesce into the single dispatch of the
last event. -/
theorem claim_C3_witness :
    debounceRun 100 [⟨"p", 0⟩, ⟨"p", 50⟩, ⟨"p", 120⟩] none = [⟨"p", 120⟩] := by
  have h := claim_C3 100 "p" ⟨"p", 0⟩ [⟨"p", 50⟩, ⟨"p", 120⟩] (by decide)
    (List.Chain.cons (by decide) (List.Chain.cons (by decide) List.Chain.nil))
  simpa using h.1

theorem runTrigger_dispatched (exec : Action → ExecOutcome) (as : List Action)
    (s : LoopState) :
    (runTrigger exec as s).dispatched = s.dispatched ++ as := by
  induction as generalizing s with
  | nil => simp [runTrigger]
  | cons a rest ih =>
    cases h : exec a with
    | ok => simp [runTrigger, h, ih]
    | failed m => simp [runTrigger, h, ih]

theorem runTrigger_log (exec : Action → ExecOutcome) (as : List Action)
    (s : LoopState) :
    (runTrigger exec as s).log = s.log ++ as.filterMap (failLog exec) := by
  induction as generalizing s with
  | nil => simp [runTrigger]
  | cons a rest ih =>
    cases h : exec a with
    | ok => simp [runTrigger, h, ih, failLog]
    | failed m => simp [runTrigger, h, ih, failLog]

theorem runLoop_ok (exec : Action → ExecOutcome) (r : Registry)
    (es : List ChangeEvent) (s : LoopState) :
    ∃ sf, runLoop exec r (es.map .ok) s = .ok sf ∧
      sf.dispatched = s.dispatched ++ es.flatMap (fun e => matchedActions r e) ∧
      sf.log = s.log ++
        es.flatMap (fun e => (matchedActions r e).filterMap (failLog exec)) := by
  induction es generalizing s with
  | nil => exact ⟨s, rfl, by simp, by simp⟩
  | cons e rest ih =>
    obtain ⟨sf, hrun, hdisp, hlog⟩ := ih (runTrigger exec (matchedActions r e) s)
    refine ⟨sf, hrun, ?_, ?_⟩
    · rw [hdisp, runTrigger_dispatched]
      simp
    · rw [hlog, runTrigger_log]
      simp

/-- Claim C2: action failures are caught, logged and isolated: for
every outcome oracle (however many dispatched actions fail), the
watch loop on a pure event stream returns normally having dispatched
every matching action of every event — so a failure never aborts the
loop and a subsequently triggered unrelated rule still dispatches —
and its final log is exactly the failure message of every failed
invocation, in order; the loop terminates abnormally only when the
watcher stream itself delivered the fatal `WatcherError`
(configuration errors having already aborted registration before the
loop began). -/
theorem claim_C2 (exec : Action → ExecOutcome) (r : Registry) (es : List ChangeEvent)
    (stream : List (Except WatchErr ChangeEvent)) (s0 : LoopState) (w : WatchErr) :
    Except.map LoopState.dispatched (runLoop exec r (es.map .ok) ⟨[], []⟩) =
      .ok (es.flatMap (fun e => matchedActions r e)) ∧
    Except.map LoopState.log (runLoop exec r (es.map .ok) ⟨[], []⟩) =
      .ok (es.flatMap (fun e => (matchedActions r e).filterMap (failLog exec))) ∧
    (runLoop exec r stream s0 = .error w → .error w ∈ stream) := by
  obtain ⟨sf, hrun, hdisp, hlog⟩ := runLoop_ok exec r es ⟨[], []⟩
  refine ⟨?_, ?_, ?_⟩
  · rw [hrun, Except.map]
    simp at hdisp
    rw [hdisp]
  · rw [hrun, Except.map]
    simp at hlog
    rw [hlog]
  · intro h
    induction stream generalizing s0 with
    | nil => simp [runLoop] at h
    | cons item rest ih =>
      cases item with
      | error w2 =>
        cases w
        cases w2
        exact List.mem_cons_self _ _
      | ok e =>
        simp only [runLoop] at h
        exact List.mem_cons_of_mem _ (ih _ h)

/-- Witness for C2: an oracle under which every action fails, two
rules, two events each matching one rule: both actions are still
dispatched, the loop returns normally, and both failures appear in
the log, in order; a stream consisting of a watcher error terminates
the loop with that error of the stream. -/
theorem claim_C2_witness :
    Except.map LoopState.dispatched
        (runLoop (fun _ => .failed "boom")
          [⟨"*.scss", .callback "A"⟩, ⟨"*.txt", .callback "B"⟩]
          (([⟨"a.scss", 0⟩, ⟨"b.txt", 1⟩] : List ChangeEvent).map .ok) ⟨[], []⟩) =
      .ok [.callback "A", .callback "B"] ∧
    Except.map LoopState.log
        (runLoop (fun _ => .failed "boom")
          [⟨"*.scss", .callback "A"⟩, ⟨"*.txt", .callback "B"⟩]
          (([⟨"a.scss", 0⟩, ⟨"b.txt", 1⟩] : List ChangeEvent).map .ok) ⟨[], []⟩) =
      .ok ["boom", "boom"] ∧
    (Except.error .watcherError) ∈
      ([.error .watcherError] : List (Except WatchErr ChangeEvent)) := by
  have h := claim_C2 (fun _ => .failed "boom")
    [⟨"*.scss", .callback "A"⟩, ⟨"*.txt", .callback "B"⟩]
    [⟨"a.scss", 0⟩, ⟨"b.txt", 1⟩] [.error .watcherError] ⟨[], []⟩ .watcherError
  exact ⟨by simpa using h.1, by simpa using h.2.1, h.2.2 rfl⟩

/-- Claim C8: a malformed pattern makes `register` fail with the
`ConfigurationError` at registration time, before serving begins; and
once registration of a whole configuration has succeeded, matching
any event against the resulting registry never raises an error. -/
theorem claim_C8 (p : String) (a : Action) (r0 : Registry)
    (cfg : List (String × Action)) (r : Registry) (e : ChangeEvent) :
    ((tokenize p.data).isOk = false → register r0 p a = .error .malformedPattern) ∧
    (registerAll cfg = .ok r → (matchEvent r e).isOk = true) := by
  constructor
  · intro hbad
    unfold register
    cases ht : tokenize p.data with
    | error er => cases er; rfl
    | ok ts => rw [ht] at hbad; simp [Except.isOk, Except.toBool] at hbad
  · intro hreg
    have hall := registerAll_ok cfg [] r (by intro w hw; simp at hw) hreg
    rw [matchEvent_eq_matchedActions r e hall.1]
    rfl

/-- Witness for C8: the unclosed class pattern `[abc` is rejected by
`register` with a `ConfigurationError`, and matching an event against
the successfully registered `*.pug` registry raises no error. -/
theorem claim_C8_witness :
    register [] "[abc" (.callback "x") = .error .malformedPattern ∧
    (matchEvent [⟨"*.pug", .callback "compile"⟩] ⟨"index.pug", 0⟩).isOk = true := by
  have h := claim_C8 "[abc" (.callback "x") []
    [("*.pug", Action.callback "compile")] [⟨"*.pug", .callback "compile"⟩] ⟨"index.pug", 0⟩
  exact ⟨h.1 rfl, h.2 rfl⟩

end Astral
